import Mathlib

/-!
Verification of `update_and_extract_new.py` (Phishing Army blocklist tracker).

The script is embedded shallowly: every filesystem / network effect is made
explicit as data.  Pure helpers of the script (`parse_records`,
`parse_http_date`, `epoch_to_http_date`, `load_last_modified`,
`check_last_modified`, `save_new_records`, `main`) are translated into Lean
functions over explicit state, keeping the source names.  Python standard
library routines used by the script (`str.strip`, `str.splitlines`,
`int(...)`, `email.utils.parsedate_to_datetime`, `datetime.fromtimestamp`,
`datetime.strftime`) are modelled by executable Lean definitions of the same
behaviour on the inputs the script feeds them.
-/

/-! ## Proleptic Gregorian calendar arithmetic

Models the calendar arithmetic performed by Python's
`datetime.fromtimestamp(e, UTC)` / `datetime(...).timestamp()`: conversion
between a day count relative to 1970-01-01 and a civil date `(year, month,
day)` in the proleptic Gregorian calendar. -/

/-- Day number (relative to 0000-03-01) of March 1 of year-of-era `y`,
counted inside one 400-year Gregorian era. -/
def soyOfEra (y : Int) : Int := 365 * y + y / 4 - y / 100 + y / 400

/-- Year-of-era (0..399, March-based) containing day-of-era `doe`:
a linear candidate, corrected downward when it overshoots. -/
def yoeOfEra (doe : Int) : Int :=
  let y0 := (400 * doe + 591) / 146097
  if doe < soyOfEra y0 then y0 - 1 else y0

/-- Civil date `(year, month, day)` of the day `z` days after 1970-01-01,
in the proleptic Gregorian calendar. -/
def civilFromDays (z : Int) : Int × Int × Int :=
  let days := z + 719468
  let era := days / 146097
  let doe := days % 146097
  let yoe := yoeOfEra doe
  let y := yoe + era * 400
  let doy := doe - soyOfEra yoe
  let mp := (5 * doy + 2) / 153
  let d := doy - (153 * mp + 2) / 5 + 1
  let m := if mp < 10 then mp + 3 else mp - 9
  (if m ≤ 2 then y + 1 else y, m, d)

/-- Number of days between 1970-01-01 and the civil date `(y, m, d)`
(proleptic Gregorian). -/
def daysFromCivil (y m d : Int) : Int :=
  let y' := if m ≤ 2 then y - 1 else y
  let era := y' / 400
  let yoe := y' % 400
  let mp := if m ≤ 2 then m + 9 else m - 3
  let doy := (153 * mp + 2) / 5 + d - 1
  era * 146097 + soyOfEra yoe + doy - 719468

/-- Gregorian leap-year predicate. -/
def isLeap (y : Int) : Prop := (y % 4 = 0 ∧ y % 100 ≠ 0) ∨ y % 400 = 0

instance (y : Int) : Decidable (isLeap y) := by unfold isLeap; infer_instance

/-- Number of days of month `m` of year `y`, as validated by Python's
`datetime` constructor. -/
def daysInMonth (y m : Int) : Int :=
  if m = 2 then (if isLeap y then 29 else 28)
  else if m = 4 ∨ m = 6 ∨ m = 9 ∨ m = 11 then 30 else 31

example : civilFromDays 0 = (1970, 1, 1) := by decide
example : civilFromDays 20089 = (2025, 1, 1) := by decide
example : daysFromCivil 2025 1 1 = 20089 := by decide
example : daysFromCivil 2024 2 29 = 19782 := by decide
example : civilFromDays 19782 = (2024, 2, 29) := by decide
example : civilFromDays 11016 = (2000, 2, 29) := by decide
example : civilFromDays (-25567) = (1900, 1, 1) := by decide
example : civilFromDays (-25509) = (1900, 2, 28) := by decide
example : civilFromDays (-25508) = (1900, 3, 1) := by decide

set_option maxRecDepth 2000 in
lemma soyResidue : ∀ r : Fin 400,
    -288 ≤ 97 * (r.val : Int) - 400 * ((r.val : Int) / 4) + 400 * ((r.val : Int) / 100) ∧
    97 * (r.val : Int) - 400 * ((r.val : Int) / 4) + 400 * ((r.val : Int) / 100) ≤ 591 := by
  decide

lemma soy_mul400 (y : Int) :
    146097 * y - 591 ≤ 400 * soyOfEra y ∧ 400 * soyOfEra y ≤ 146097 * y + 288 := by
  have h4 : y / 4 = 100 * (y / 400) + (y % 400) / 4 := by omega
  have h100 : y / 100 = 4 * (y / 400) + (y % 400) / 100 := by omega
  have hr : 0 ≤ y % 400 := by omega
  have hlt : (y % 400).toNat < 400 := by omega
  have hres := soyResidue ⟨(y % 400).toNat, hlt⟩
  rw [Int.toNat_of_nonneg hr] at hres
  simp only [soyOfEra]
  omega

lemma soy_zero : soyOfEra 0 = 0 := by decide

lemma soy_one : soyOfEra 1 = 365 := by decide

lemma soy_400 : soyOfEra 400 = 146097 := by decide

lemma yoeOfEra_spec (doe : Int) (h0 : 0 ≤ doe) (h1 : doe ≤ 146096) :
    0 ≤ yoeOfEra doe ∧ yoeOfEra doe ≤ 399 ∧
    soyOfEra (yoeOfEra doe) ≤ doe ∧ doe < soyOfEra (yoeOfEra doe + 1) := by
  simp only [yoeOfEra]
  have hdiv : 146097 * ((400 * doe + 591) / 146097) ≤ 400 * doe + 591 ∧
      400 * doe + 591 < 146097 * ((400 * doe + 591) / 146097) + 146097 := by omega
  have hy0 : 0 ≤ (400 * doe + 591) / 146097 ∧ (400 * doe + 591) / 146097 ≤ 400 := by omega
  by_cases hz : (400 * doe + 591) / 146097 = 0
  · rw [hz, soy_zero, if_neg (by omega), soy_zero]
    have e1 : (0 : Int) + 1 = 1 := by norm_num
    rw [e1, soy_one]
    omega
  by_cases h400 : (400 * doe + 591) / 146097 = 400
  · rw [h400, soy_400, if_pos (by omega)]
    have e1 : (400 : Int) - 1 + 1 = 400 := by norm_num
    rw [e1, soy_400]
    have hA := soy_mul400 (400 - 1)
    omega
  · split_ifs with h
    · have hB := soy_mul400 ((400 * doe + 591) / 146097 - 1)
      have hone : (400 * doe + 591) / 146097 - 1 + 1 = (400 * doe + 591) / 146097 := by omega
      rw [hone]
      omega
    · have hA := soy_mul400 ((400 * doe + 591) / 146097)
      have hC := soy_mul400 ((400 * doe + 591) / 146097 + 1)
      omega

lemma monthDay_spec (doy : Int) (h0 : 0 ≤ doy) (h1 : doy ≤ 365) :
    0 ≤ (5 * doy + 2) / 153 ∧ (5 * doy + 2) / 153 ≤ 11 ∧
    1 ≤ doy - (153 * ((5 * doy + 2) / 153) + 2) / 5 + 1 ∧
    (153 * ((5 * doy + 2) / 153) + 2) / 5 + (doy - (153 * ((5 * doy + 2) / 153) + 2) / 5 + 1) - 1
      = doy ∧
    ((5 * doy + 2) / 153 = 1 ∨ (5 * doy + 2) / 153 = 3 ∨ (5 * doy + 2) / 153 = 6 ∨
        (5 * doy + 2) / 153 = 8 → doy - (153 * ((5 * doy + 2) / 153) + 2) / 5 + 1 ≤ 30) ∧
    ((5 * doy + 2) / 153 = 11 → doy - (153 * ((5 * doy + 2) / 153) + 2) / 5 + 1 = doy - 336) ∧
    (doy - (153 * ((5 * doy + 2) / 153) + 2) / 5 + 1 ≤ 31) := by
  omega

lemma soy_succ_bounds (y : Int) :
    365 ≤ soyOfEra (y + 1) - soyOfEra y ∧ soyOfEra (y + 1) - soyOfEra y ≤ 366 ∧
    (soyOfEra (y + 1) - soyOfEra y = 366 ↔
      (((y + 1) % 4 = 0 ∧ (y + 1) % 100 ≠ 0) ∨ (y + 1) % 400 = 0)) := by
  simp only [soyOfEra]
  omega

set_option maxHeartbeats 1000000 in
theorem civilFromDays_valid (z : Int) :
    1 ≤ (civilFromDays z).2.1 ∧ (civilFromDays z).2.1 ≤ 12 ∧
    1 ≤ (civilFromDays z).2.2 ∧
    (civilFromDays z).2.2 ≤ daysInMonth (civilFromDays z).1 (civilFromDays z).2.1 := by
  have hdoe0 : 0 ≤ (z + 719468) % 146097 := by omega
  have hdoe1 : (z + 719468) % 146097 ≤ 146096 := by omega
  obtain ⟨hy1, hy2, hy3, hy4⟩ := yoeOfEra_spec ((z + 719468) % 146097) hdoe0 hdoe1
  have hsucc := soy_succ_bounds (yoeOfEra ((z + 719468) % 146097))
  have hmd := monthDay_spec
    ((z + 719468) % 146097 - soyOfEra (yoeOfEra ((z + 719468) % 146097)))
    (by omega) (by omega)
  simp only [civilFromDays, daysInMonth, isLeap]
  split_ifs <;> omega

set_option maxHeartbeats 1000000 in
theorem daysFromCivil_civilFromDays (z : Int) :
    daysFromCivil (civilFromDays z).1 (civilFromDays z).2.1 (civilFromDays z).2.2 = z := by
  have hdoe0 : 0 ≤ (z + 719468) % 146097 := by omega
  have hdoe1 : (z + 719468) % 146097 ≤ 146096 := by omega
  obtain ⟨hy1, hy2, hy3, hy4⟩ := yoeOfEra_spec ((z + 719468) % 146097) hdoe0 hdoe1
  have hsucc := soy_succ_bounds (yoeOfEra ((z + 719468) % 146097))
  have hmd := monthDay_spec
    ((z + 719468) % 146097 - soyOfEra (yoeOfEra ((z + 719468) % 146097)))
    (by omega) (by omega)
  simp only [civilFromDays, daysFromCivil]
  split_ifs <;>
    first
      | omega
      | (rw [show (yoeOfEra ((z + 719468) % 146097) + (z + 719468) / 146097 * 400) % 400
            = yoeOfEra ((z + 719468) % 146097) from by omega]; omega)
      | (rw [show (yoeOfEra ((z + 719468) % 146097) + (z + 719468) / 146097 * 400 + 1 - 1) % 400
            = yoeOfEra ((z + 719468) % 146097) from by omega]; omega)

/-! ## Character and token helpers

Executable models of the Python string routines used by the script, working
on `List Char` (the `data` of a Lean `String`). -/

/-- ASCII digit character for a value below 10. -/
def digitCh (n : Nat) : Char := Char.ofNat (48 + n % 10)

/-- Two-digit zero-padded decimal rendering, as `strftime` field
formatting (`%d`, `%H`, `%M`, `%S`). -/
def pad2 (n : Nat) : List Char := [digitCh (n / 10), digitCh (n % 10)]

/-- Four-digit zero-padded decimal rendering, as `strftime` year
formatting (`%Y` on years 1000..9999). -/
def pad4 (n : Nat) : List Char :=
  [digitCh (n / 1000), digitCh (n / 100 % 10), digitCh (n / 10 % 10), digitCh (n % 10)]

/-- Abbreviated weekday names used by `strftime %a` (C locale),
indexed from Sunday. -/
def wdNames : List (List Char) :=
  [['S', 'u', 'n'], ['M', 'o', 'n'], ['T', 'u', 'e'], ['W', 'e', 'd'],
   ['T', 'h', 'u'], ['F', 'r', 'i'], ['S', 'a', 't']]

/-- Abbreviated month names used by `strftime %b` (C locale) and recognised
by `email.utils` date parsing. -/
def monthNamesAbbr : List (List Char) :=
  [['J', 'a', 'n'], ['F', 'e', 'b'], ['M', 'a', 'r'], ['A', 'p', 'r'],
   ['M', 'a', 'y'], ['J', 'u', 'n'], ['J', 'u', 'l'], ['A', 'u', 'g'],
   ['S', 'e', 'p'], ['O', 'c', 't'], ['N', 'o', 'v'], ['D', 'e', 'c']]

/-- Splits a character list at every occurrence of `sep` (occurrences are
consumed; `n` separators yield `n + 1` chunks, possibly empty). -/
def splitOnChar (sep : Char) : List Char → List (List Char)
  | [] => [[]]
  | c :: cs =>
    if c = sep then [] :: splitOnChar sep cs
    else
      match splitOnChar sep cs with
      | [] => [[c]]
      | t :: ts => (c :: t) :: ts

/-- Parses a non-empty all-digit token to a number, as Python `int` does on
the digit tokens produced by date parsing. -/
def parseDigits (l : List Char) : Option Nat :=
  if l ≠ [] ∧ l.all Char.isDigit then
    some (l.foldl (fun a c => 10 * a + (c.toNat - 48)) 0)
  else none

/-- Index (from 0) of a token in a list of tokens. -/
def tokenIdx (t : List Char) : List (List Char) → Option Nat
  | [] => none
  | w :: ws => if w = t then some 0 else (tokenIdx t ws).map (· + 1)

/-- Month number (1..12) of an abbreviated month-name token, compared case
insensitively as `email.utils` date parsing does. -/
def monthNum (tok : List Char) : Option Nat :=
  (tokenIdx (tok.map Char.toLower)
    (monthNamesAbbr.map (fun w => w.map Char.toLower))).map (· + 1)

/-- Parses an `HH:MM:SS` token into its three numeric fields. -/
def parseTime3 (tok : List Char) : Option (Nat × Nat × Nat) :=
  match splitOnChar ':' tok with
  | [a, b, c] =>
    match parseDigits a, parseDigits b, parseDigits c with
    | some h, some m, some s => some (h, m, s)
    | _, _, _ => none
  | _ => none

/-- UTC offset of a timezone token.  The model covers the UTC designators
(`GMT`, `UT`, `UTC`, numeric `+0000`-style offsets are not needed for the
HTTP dates the script consumes). -/
def tzOff (tok : List Char) : Option Int :=
  if tok = ['G', 'M', 'T'] ∨ tok = ['U', 'T'] ∨ tok = ['U', 'T', 'C'] then some 0
  else none

/-- Models `email.utils.parsedate_to_datetime` followed by
`int(dt.timestamp())` on an RFC 5322 date such as
`Wed, 01 Jan 2025 00:00:00 GMT`: split into whitespace-separated tokens,
drop a leading weekday token ending in a comma, read day, month name, year
(with the RFC two-digit-year adjustment), time and timezone, validate the
fields as the `datetime` constructor does, and convert to epoch seconds. -/
def parsedateToEpoch (l : List Char) : Option Int :=
  let toks := (splitOnChar ' ' l).filter (fun t => !t.isEmpty)
  let toks2 := match toks with
    | t :: rest => if t.getLast? = some ',' then rest else t :: rest
    | [] => []
  match toks2 with
  | [dd, mon, yyyy, time, tz] =>
    match parseDigits dd, monthNum mon, parseDigits yyyy, parseTime3 time, tzOff tz with
    | some d, some m, some y0, some hms, some off =>
      let y : Nat := if y0 ≤ 68 then y0 + 2000 else if y0 < 100 then y0 + 1900 else y0
      if 1 ≤ y ∧ y ≤ 9999 ∧ 1 ≤ d ∧ (d : Int) ≤ daysInMonth (y : Int) (m : Int) ∧
          hms.1 ≤ 23 ∧ hms.2.1 ≤ 59 ∧ hms.2.2 ≤ 59 then
        some (86400 * daysFromCivil (y : Int) (m : Int) (d : Int) +
          3600 * (hms.1 : Int) + 60 * (hms.2.1 : Int) + (hms.2.2 : Int) - off)
      else none
    | _, _, _, _, _ => none
  | _ => none

/-- Model of `parse_http_date` (lines 20-34 of the script): `None` on a
falsy input string, otherwise the parsed epoch, `None` when parsing fails. -/
def parse_http_date (s : String) : Option Int :=
  if s = "" then none else parsedateToEpoch s.data

/-- Model of `epoch_to_http_date` (lines 36-39):
`datetime.fromtimestamp(epoch, UTC).strftime('%a, %d %b %Y %H:%M:%S GMT')`. -/
def epoch_to_http_date (e : Int) : String :=
  let days := e / 86400
  let sod := (e % 86400).toNat
  let c := civilFromDays days
  let wd := wdNames.getD ((days + 4) % 7).toNat []
  let mon := monthNamesAbbr.getD (c.2.1 - 1).toNat []
  ⟨(wd ++ [',']) ++ ' ' :: (pad2 c.2.2.toNat ++ ' ' :: (mon ++ ' ' :: (pad4 c.1.toNat ++
    ' ' :: ((pad2 (sod / 3600) ++ ':' :: (pad2 (sod % 3600 / 60) ++ ':' :: pad2 (sod % 60))) ++
    ' ' :: ['G', 'M', 'T']))))⟩

example : epoch_to_http_date 1735689600 = "Wed, 01 Jan 2025 00:00:00 GMT" := by decide
example : epoch_to_http_date 0 = "Thu, 01 Jan 1970 00:00:00 GMT" := by decide
example : parse_http_date "Wed, 01 Jan 2025 00:00:00 GMT" = some 1735689600 := by decide
example : parse_http_date "Thu, 01 Jan 1970 00:00:00 GMT" = some 0 := by decide
example : parse_http_date "01 Jan 2025 00:00:00 GMT" = some 1735689600 := by decide
example : parse_http_date "" = none := by decide
example : parse_http_date "not a date" = none := by decide
example : parse_http_date "Mon, 31 Feb 2025 00:00:00 GMT" = none := by decide
example : parse_http_date "Sat, 29 Feb 2020 12:30:45 GMT" = some 1582979445 := by decide

/-! ## Python string primitives -/

/-- Whitespace stripped by Python `str.strip()` (ASCII whitespace; the
blocklist and timestamp files are ASCII text). -/
def isPySpace (c : Char) : Bool :=
  c == ' ' || c == '\t' || c == '\n' || c == '\r' || c == '\x0b' || c == '\x0c'

/-- Line boundaries recognised by Python `str.splitlines()`. -/
def lineBreak (c : Char) : Bool :=
  c == '\n' || c == '\r' || c == '\x0b' || c == '\x0c' || c == '\x1c' ||
  c == '\x1d' || c == '\x1e' || c == '\x85' || c == ' ' || c == ' '

/-- Strips `isPySpace` characters from both ends, as `str.strip()`. -/
def stripChars (l : List Char) : List Char :=
  ((l.dropWhile isPySpace).reverse.dropWhile isPySpace).reverse

/-- Model of Python `str.strip()`. -/
def pyStrip (s : String) : String := ⟨stripChars s.data⟩

/-- Model of Python `str.splitlines()`: split at every line boundary,
absorbing `"\r\n"` as one boundary; boundaries are dropped and a trailing
boundary produces no extra empty line. -/
def splitlinesChars : List Char → List (List Char)
  | [] => []
  | [c] => if lineBreak c then [[]] else [[c]]
  | c :: c₂ :: cs =>
    if lineBreak c then
      if c == '\r' && c₂ == '\n' then [] :: splitlinesChars cs
      else [] :: splitlinesChars (c₂ :: cs)
    else
      match splitlinesChars (c₂ :: cs) with
      | [] => [[c]]
      | t :: ts => (c :: t) :: ts

/-- Model of Python `str.splitlines()` at the `String` level. -/
def pySplitlines (s : String) : List String :=
  (splitlinesChars s.data).map (fun l => (⟨l⟩ : String))

/-- Model of Python `str.startswith('#')`. -/
def pyStartsWithHash (s : String) : Bool :=
  match s.data with
  | c :: _ => c == '#'
  | [] => false

/-- Model of Python `int(s)` on an (already stripped) literal: optional
sign followed by decimal digits; any other content raises `ValueError`,
modelled as `none`. -/
def pyParseInt (s : String) : Option Int :=
  match s.data with
  | '+' :: rest => (parseDigits rest).map (fun n => (n : Int))
  | '-' :: rest => (parseDigits rest).map (fun n => -(n : Int))
  | l => (parseDigits l).map (fun n => (n : Int))

/-- Decimal digits of a natural number (fuel-based so that it reduces in
the kernel). -/
def natCharsAux : Nat → Nat → List Char
  | 0, _ => []
  | fuel + 1, n =>
    if n < 10 then [digitCh n]
    else natCharsAux fuel (n / 10) ++ [digitCh (n % 10)]

/-- Decimal rendering of a natural number, as Python `str`. -/
def natChars (n : Nat) : List Char := natCharsAux (n + 1) n

/-- Model of Python `str` on a natural number. -/
def natStr (n : Nat) : String := ⟨natChars n⟩

/-- Model of Python `str` on an `int`. -/
def intStr (e : Int) : String :=
  ⟨if e < 0 then '-' :: natChars (-e).toNat else natChars e.toNat⟩

example : pyStrip "  a b\t\n" = "a b" := by decide
example : pySplitlines "a\nb" = ["a", "b"] := by decide
example : pySplitlines "a\r\nb\n" = ["a", "b"] := by decide
example : pySplitlines "a\n\nb" = ["a", "", "b"] := by decide
example : pySplitlines "" = [] := by decide
example : pySplitlines "\n" = [""] := by decide
example : pyParseInt "123" = some 123 := by decide
example : pyParseInt "-45" = some (-45) := by decide
example : pyParseInt "12a" = none := by decide
example : pyParseInt "" = none := by decide
example : intStr (-45) = "-45" := by decide
example : natStr 0 = "0" := by decide
example : intStr 1735689600 = "1735689600" := by decide

/-! ## The script's pure record parsing -/

/-- Fixed source URL of the script (module constant `BLOCKLIST_URL`). -/
def BLOCKLIST_URL : String :=
  "https://phishing.army/download/phishing_army_blocklist_extended.txt"

/-- Model of `parse_records` (lines 99-109): on falsy (empty) content the
empty set, otherwise the set of stripped lines that are non-empty and do
not start with `'#'`. -/
def parse_records (content : String) : Finset String :=
  if content = "" then ∅
  else (((pySplitlines content).map pyStrip).filter
    (fun l => !(l == "") && !pyStartsWithHash l)).toFinset

example : parse_records "a\nb\n# comment\n" = {"a", "b"} := by decide
example : parse_records "" = ∅ := by decide
example : parse_records "  a  \n\n#x\na" = {"a"} := by decide

/-! ## State model of the script's effects

The three data files of the working directory are explicit state; the two
network calls of a run are explicit inputs.  `commit_changes` only drives
version control and never alters the content of the three data files, so it
does not appear in the state. -/

/-- Contents of the three data files; `none` means the file does not exist. -/
structure FS where
  lastModified : Option String
  cache : Option String
  output : Option String
deriving DecidableEq

deriving instance DecidableEq for Except

/-- Inputs of one run: result of the HEAD probe (`Except.error` models a
raised network/HTTP error, otherwise the optional `Last-Modified` header),
result of the GET download, and the wall-clock string used in the report
header. -/
structure Env where
  headResult : Except Unit (Option String)
  getResult : Except Unit String
  now : String
deriving DecidableEq

/-- How a run ends: an exception re-raised by `main`'s top-level handler, an
early `return` (timestamp missing / unchanged / empty download), or the full
fetch-diff-persist path. -/
inductive Outcome where
  | raised
  | abortedNoTimestamp
  | skippedUnchanged
  | abortedEmptyContent
  | completed
deriving DecidableEq

/-- Result of one run: final file state, how the run ended, whether
`download_blocklist` was invoked, and the new-record set that was reported
(empty whenever no report of new records was produced). -/
structure RunResult where
  fs : FS
  outcome : Outcome
  downloaded : Bool
  newRecords : Finset String
deriving DecidableEq

/-- Model of `load_last_modified` (lines 41-54): absent file gives `None`;
otherwise the stripped content is parsed with `int(...)`, `ValueError`
giving `None`. -/
def load_last_modified (file : Option String) : Option Int :=
  match file with
  | none => none
  | some s => pyParseInt (pyStrip s)

/-- Model of `save_last_modified` (lines 56-61): the file is overwritten
with `str(epoch)`. -/
def save_last_modified (epoch : Int) : Option String := some (intStr epoch)

/-- Model of `check_last_modified` (lines 63-85): a raised probe error
propagates; a missing header, an unparsable header, or a falsy (zero)
parsed epoch yield `None`; otherwise the parsed epoch. -/
def check_last_modified (env : Env) : Except Unit (Option Int) :=
  match env.headResult with
  | .error e => .error e
  | .ok none => .ok none
  | .ok (some hdr) =>
    match parse_http_date hdr with
    | none => .ok none
    | some e => if e = 0 then .ok none else .ok (some e)

/-- Model of `download_blocklist` (lines 87-97): a raised network error
propagates, otherwise the response text. -/
def download_blocklist (env : Env) : Except Unit String := env.getResult

/-- Model of `load_cached_content` (lines 111-116). -/
def load_cached_content (fs : FS) : Option String := fs.cache

/-- Right-fold concatenation of lines, each terminated by `"\n"`,
matching consecutive `f.write(line + "\n")` calls. -/
def joinLines (l : List String) : String :=
  l.foldr (fun r acc => r ++ "\n" ++ acc) ""

/-- Content written by `save_new_records` (lines 124-143): six `'#'`-headed
metadata lines, a blank line, then the records in sorted order (or the
placeholder line when the set is falsy/empty). -/
def save_new_records_content (records : Finset String) (last_modified_epoch : Int)
    (now : String) : String :=
  joinLines
    (["# New records added to Phishing Army Extended Blocklist",
      "# Source: " ++ BLOCKLIST_URL,
      "# Last updated: " ++ now,
      "# Blocklist Last-Modified: " ++
        (if last_modified_epoch ≠ 0 then epoch_to_http_date last_modified_epoch
         else "Unknown"),
      "# Blocklist Last-Modified (epoch): " ++ intStr last_modified_epoch,
      "# Total new records: " ++ natStr records.card,
      ""] ++
     (if records = ∅ then ["# No new records detected in the last check"]
      else records.sort (· ≤ ·)))

/-- The new-record set computed by `main` (lines 207-218): the current
records minus the cached ones, except that a missing or falsy (empty)
cached text means a first run and an empty diff. -/
def diffAgainstCache (fs : FS) (content : String) : Finset String :=
  match load_cached_content fs with
  | some prev => if prev ≠ "" then parse_records content \ parse_records prev else ∅
  | none => ∅

/-- The fetch-diff-persist tail of `main` (lines 196-228): download (errors
propagate), abort on falsy content, diff against the cached snapshot
(treating a falsy cached text as a first run), then write report, cache and
timestamp. -/
def mainFetch (env : Env) (fs : FS) (current : Int) : RunResult :=
  match download_blocklist env with
  | .error _ => ⟨fs, .raised, true, ∅⟩
  | .ok content =>
    if content = "" then ⟨fs, .abortedEmptyContent, true, ∅⟩
    else
      let newRecords := diffAgainstCache fs content
      ⟨⟨save_last_modified current, some content,
          some (save_new_records_content newRecords current env.now)⟩,
        .completed, true, newRecords⟩

namespace Script

/-- Model of `main` (lines 169-236): load the stored epoch, probe the
current `Last-Modified` (a raised probe error is re-raised by the top-level
handler), abort if it cannot be determined, skip with an empty report if the
stored epoch is truthy and unchanged, otherwise fetch-diff-persist. -/
def main (env : Env) (fs : FS) : RunResult :=
  match check_last_modified env with
  | .error _ => ⟨fs, .raised, false, ∅⟩
  | .ok none => ⟨fs, .abortedNoTimestamp, false, ∅⟩
  | .ok (some current) =>
    match load_last_modified fs.lastModified with
    | some stored =>
      if stored ≠ 0 ∧ stored = current then
        ⟨{ fs with output := some (save_new_records_content ∅ stored env.now) },
          .skippedUnchanged, false, ∅⟩
      else mainFetch env fs current
    | none => mainFetch env fs current

end Script

set_option maxRecDepth 8000 in
example :
    Script.main ⟨.ok (some "Wed, 01 Jan 2025 00:00:00 GMT"), .ok "a\nb\n# comment\n", "t"⟩
        ⟨none, none, none⟩ =
      ⟨⟨some "1735689600", some "a\nb\n# comment\n",
          some (save_new_records_content ∅ 1735689600 "t")⟩, .completed, true, ∅⟩ := by
  decide

set_option maxRecDepth 8000 in
example :
    Script.main ⟨.ok (some "Wed, 01 Jan 2025 00:00:00 GMT"), .ok "a\nb\n# c\n", "t"⟩
        ⟨some "1735689600", some "a\n", none⟩ =
      ⟨⟨some "1735689600", some "a\n",
          some (save_new_records_content ∅ 1735689600 "t")⟩, .skippedUnchanged, false, ∅⟩ := by
  decide

set_option maxRecDepth 8000 in
example :
    (Script.main ⟨.ok (some "Wed, 01 Jan 2025 00:00:00 GMT"), .ok "a\nb\n# c\n", "t"⟩
        ⟨some "100", some "a\n", none⟩).newRecords = {"b"} := by
  decide

/-! ## Helper lemmas about the run model -/

lemma check_last_modified_ne_zero (env : Env) (k : Int)
    (h : check_last_modified env = .ok (some k)) : k ≠ 0 := by
  unfold check_last_modified at h
  split at h
  · simp at h
  · simp at h
  · split at h
    · simp at h
    · split at h
      · simp at h
      · simp only [Except.ok.injEq, Option.some.injEq] at h
        omega

lemma parse_records_empty_content : parse_records "" = ∅ := by decide

lemma mainFetch_ok (env : Env) (fs : FS) (k : Int) (content : String)
    (hget : download_blocklist env = .ok content) (hc : content ≠ "") :
    mainFetch env fs k =
      ⟨⟨save_last_modified k, some content,
          some (save_new_records_content (diffAgainstCache fs content) k env.now)⟩,
        .completed, true, diffAgainstCache fs content⟩ := by
  simp only [mainFetch, hget]
  rw [if_neg hc]

lemma diffAgainstCache_no_cache (fs : FS) (content : String)
    (hcache : load_cached_content fs = none) : diffAgainstCache fs content = ∅ := by
  simp [diffAgainstCache, hcache]

lemma diffAgainstCache_empty_cache (fs : FS) (content : String)
    (hcache : load_cached_content fs = some "") : diffAgainstCache fs content = ∅ := by
  simp [diffAgainstCache, hcache]

lemma mainFetch_outcome_ne_skipped (env : Env) (fs : FS) (k : Int) :
    (mainFetch env fs k).outcome ≠ .skippedUnchanged := by
  unfold mainFetch
  rcases download_blocklist env with e | content
  · simp
  · simp only
    split_ifs
    · simp
    · simp

lemma main_not_unchanged (env : Env) (fs : FS) (k : Int)
    (hprobe : check_last_modified env = .ok (some k))
    (hnc : ∀ e, load_last_modified fs.lastModified = some e → ¬(e ≠ 0 ∧ e = k)) :
    Script.main env fs = mainFetch env fs k := by
  simp only [Script.main, hprobe]
  rcases hl : load_last_modified fs.lastModified with _ | e
  · rfl
  · exact if_neg (hnc e hl)

/-! ## Claim theorems about the run model -/

/-- C1: when a stored timestamp is present and equals the freshly probed
timestamp, `main` performs no download, writes a report containing zero
records, and leaves the stored timestamp file (and the cache file)
unchanged: `save_last_modified` is never reached on this path. -/
theorem c1_unchanged_timestamp_skips (env : Env) (fs : FS) (k : Int)
    (hstored : load_last_modified fs.lastModified = some k)
    (hprobe : check_last_modified env = .ok (some k)) :
    Script.main env fs =
      ⟨⟨fs.lastModified, fs.cache, some (save_new_records_content ∅ k env.now)⟩,
        .skippedUnchanged, false, ∅⟩ := by
  have hk : k ≠ 0 := check_last_modified_ne_zero env k hprobe
  simp only [Script.main, hprobe, hstored]
  rw [if_pos ⟨hk, trivial⟩]

set_option maxRecDepth 8000 in
/-- Witness for C1 at a concrete environment and file state. -/
theorem c1_unchanged_timestamp_skips_witness :
    Script.main ⟨.ok (some "Wed, 01 Jan 2025 00:00:00 GMT"), .ok "x\n", "t"⟩
        ⟨some "1735689600", some "a\n", none⟩ =
      ⟨⟨some "1735689600", some "a\n", some (save_new_records_content ∅ 1735689600 "t")⟩,
        .skippedUnchanged, false, ∅⟩ :=
  c1_unchanged_timestamp_skips _ _ 1735689600 (by decide) (by decide)

/-- C5: on a first run (no cache file), once `main` reaches the download
(timestamp determined, unchanged-skip not taken), the reported new-record
set is empty even though the fetched content parses to a non-empty record
set; the fetched content is written to the cache and the probed timestamp
is persisted. -/
theorem c5_first_run_empty_report (env : Env) (fs : FS) (k : Int) (content : String)
    (hprobe : check_last_modified env = .ok (some k))
    (hnc : ∀ e, load_last_modified fs.lastModified = some e → ¬(e ≠ 0 ∧ e = k))
    (hcache : load_cached_content fs = none)
    (hget : download_blocklist env = .ok content)
    (hne : parse_records content ≠ ∅) :
    Script.main env fs =
      ⟨⟨save_last_modified k, some content,
          some (save_new_records_content ∅ k env.now)⟩, .completed, true, ∅⟩ := by
  have hc : content ≠ "" := by
    intro h; rw [h] at hne; exact hne parse_records_empty_content
  rw [main_not_unchanged env fs k hprobe hnc,
    mainFetch_ok env fs k content hget hc,
    diffAgainstCache_no_cache fs content hcache]

set_option maxRecDepth 8000 in
/-- Witness for C5: no cache file, fetched content parses to `{a, b}`,
yet the reported set is empty and cache/timestamp are persisted. -/
theorem c5_first_run_empty_report_witness :
    parse_records "a\nb\n# comment\n" ≠ ∅ ∧
    Script.main ⟨.ok (some "Wed, 01 Jan 2025 00:00:00 GMT"), .ok "a\nb\n# comment\n", "t"⟩
        ⟨none, none, none⟩ =
      ⟨⟨some "1735689600", some "a\nb\n# comment\n",
          some (save_new_records_content ∅ 1735689600 "t")⟩, .completed, true, ∅⟩ :=
  ⟨by decide,
   c5_first_run_empty_report _ _ 1735689600 _ (by decide)
     (fun e he => by simp [load_last_modified] at he) (by decide) (by decide) (by decide)⟩

/-- C6 (counterexample to the claim as stated): a probe (HEAD) error does
not make `check_last_modified` yield absence — the exception propagates —
and `main` does not abort cleanly: its top-level handler re-raises, so the
run ends with the exception (though with no state mutation). -/
theorem c6_probe_error_counterexample :
    check_last_modified ⟨.error (), .ok "x", "t"⟩ ≠ .ok none ∧
    (Script.main ⟨.error (), .ok "x", "t"⟩ ⟨some "5", some "a\n", some "r"⟩).outcome
      = .raised ∧
    (Script.main ⟨.error (), .ok "x", "t"⟩ ⟨some "5", some "a\n", some "r"⟩).fs
      = ⟨some "5", some "a\n", some "r"⟩ :=
  ⟨by decide, by decide, by decide⟩

/-- C6 (amended): when the probe fails, the header is missing or
unparsable, or the fetch fails, the run mutates no persisted state; the
missing/unparsable-header case makes `check_last_modified` yield absence
and `main` return cleanly, while probe and fetch network errors propagate
as exceptions re-raised by `main` (still with all three files unchanged). -/
theorem c6_network_errors_leave_state (env : Env) (fs : FS) :
    (check_last_modified env = .error () →
      Script.main env fs = ⟨fs, .raised, false, ∅⟩) ∧
    (check_last_modified env = .ok none →
      Script.main env fs = ⟨fs, .abortedNoTimestamp, false, ∅⟩) ∧
    (∀ k : Int, check_last_modified env = .ok (some k) →
      download_blocklist env = .error () →
      (∀ e, load_last_modified fs.lastModified = some e → ¬(e ≠ 0 ∧ e = k)) →
      Script.main env fs = ⟨fs, .raised, true, ∅⟩) := by
  refine ⟨fun h => by simp [Script.main, h],
          fun h => by simp [Script.main, h],
          fun k hk hg hnc => ?_⟩
  rw [main_not_unchanged env fs k hk hnc]
  simp [mainFetch, hg]

set_option maxRecDepth 8000 in
/-- Witness for the amended C6 at concrete inputs covering all three
failure shapes. -/
theorem c6_network_errors_leave_state_witness :
    Script.main ⟨.error (), .ok "x", "t"⟩ ⟨none, none, none⟩ =
      ⟨⟨none, none, none⟩, .raised, false, ∅⟩ ∧
    Script.main ⟨.ok none, .ok "x", "t"⟩ ⟨none, none, none⟩ =
      ⟨⟨none, none, none⟩, .abortedNoTimestamp, false, ∅⟩ ∧
    Script.main ⟨.ok (some "Wed, 01 Jan 2025 00:00:00 GMT"), .error (), "t"⟩
        ⟨none, none, none⟩ =
      ⟨⟨none, none, none⟩, .raised, true, ∅⟩ :=
  ⟨(c6_network_errors_leave_state _ _).1 (by decide),
   (c6_network_errors_leave_state _ _).2.1 (by decide),
   (c6_network_errors_leave_state _ _).2.2 1735689600 (by decide) (by decide)
     (fun e he => by simp [load_last_modified] at he)⟩

/-- C7: when the stored timestamp file exists but its content is not a
valid integer, `load_last_modified` returns `None` without raising, and a
run that reaches the fetch (probe and download succeed, content truthy)
proceeds through the full fetch-diff-persist path exactly as if no prior
timestamp state existed. -/
theorem c7_corrupt_timestamp_full_path (env : Env) (fs : FS) (s : String) (k : Int)
    (content : String)
    (hfile : fs.lastModified = some s)
    (hbad : pyParseInt (pyStrip s) = none)
    (hprobe : check_last_modified env = .ok (some k))
    (hget : download_blocklist env = .ok content)
    (hc : content ≠ "") :
    load_last_modified fs.lastModified = none ∧
    Script.main env fs = Script.main env ⟨none, fs.cache, fs.output⟩ ∧
    (Script.main env fs).outcome = .completed ∧
    (Script.main env fs).downloaded = true := by
  have hl : load_last_modified fs.lastModified = none := by
    rw [hfile]; simp [load_last_modified, hbad]
  have h1 : Script.main env fs = mainFetch env fs k :=
    main_not_unchanged env fs k hprobe
      (fun e he => by rw [hl] at he; exact absurd he (by simp))
  have h2 : Script.main env ⟨none, fs.cache, fs.output⟩ =
      mainFetch env ⟨none, fs.cache, fs.output⟩ k :=
    main_not_unchanged env _ k hprobe
      (fun e he => by simp [load_last_modified] at he)
  have h3 : diffAgainstCache fs content =
      diffAgainstCache ⟨none, fs.cache, fs.output⟩ content := rfl
  refine ⟨hl, ?_, ?_, ?_⟩
  · rw [h1, h2, mainFetch_ok env fs k content hget hc,
      mainFetch_ok env _ k content hget hc, h3]
  · rw [h1, mainFetch_ok env fs k content hget hc]
  · rw [h1, mainFetch_ok env fs k content hget hc]

set_option maxRecDepth 8000 in
/-- Witness for C7 with a stored timestamp file containing `garbage`. -/
theorem c7_corrupt_timestamp_full_path_witness :
    load_last_modified (some "garbage") = none ∧
    Script.main ⟨.ok (some "Wed, 01 Jan 2025 00:00:00 GMT"), .ok "a\n", "t"⟩
        ⟨some "garbage", some "a\n", none⟩ =
      Script.main ⟨.ok (some "Wed, 01 Jan 2025 00:00:00 GMT"), .ok "a\n", "t"⟩
        ⟨none, some "a\n", none⟩ :=
  ⟨(c7_corrupt_timestamp_full_path ⟨.ok (some "Wed, 01 Jan 2025 00:00:00 GMT"), .ok "a\n", "t"⟩
      ⟨some "garbage", some "a\n", none⟩ "garbage" 1735689600 "a\n"
      rfl (by decide) (by decide) (by decide) (by decide)).1,
   (c7_corrupt_timestamp_full_path ⟨.ok (some "Wed, 01 Jan 2025 00:00:00 GMT"), .ok "a\n", "t"⟩
      ⟨some "garbage", some "a\n", none⟩ "garbage" 1735689600 "a\n"
      rfl (by decide) (by decide) (by decide) (by decide)).2.1⟩

/-- C9: a `Last-Modified` header parsing to epoch 0 is treated like a
missing or unparsable header — `check_last_modified` yields `None` and
`main` aborts with no state change — and a stored timestamp equal to 0 is
falsy, so the unchanged-skip path is never taken. -/
theorem c9_zero_epoch_is_falsy :
    (∀ (env : Env) (fs : FS) (hdr : String), env.headResult = .ok (some hdr) →
      parse_http_date hdr = some 0 →
      check_last_modified env = .ok none ∧
      Script.main env fs = ⟨fs, .abortedNoTimestamp, false, ∅⟩) ∧
    (∀ (env : Env) (fs : FS), load_last_modified fs.lastModified = some 0 →
      (Script.main env fs).outcome ≠ .skippedUnchanged) := by
  constructor
  · intro env fs hdr hh hp
    have hc : check_last_modified env = .ok none := by
      simp [check_last_modified, hh, hp]
    exact ⟨hc, by simp [Script.main, hc]⟩
  · intro env fs hl
    rcases hc : check_last_modified env with e | o
    · simp [Script.main, hc]
    · rcases o with _ | current
      · simp [Script.main, hc]
      · simp only [Script.main, hc, hl]
        rw [if_neg (by simp)]
        exact mainFetch_outcome_ne_skipped env fs current

set_option maxRecDepth 8000 in
/-- Witness for C9: the Unix-epoch date header aborts the run, and a
stored `0` does not trigger the unchanged-skip path. -/
theorem c9_zero_epoch_is_falsy_witness :
    (check_last_modified ⟨.ok (some "Thu, 01 Jan 1970 00:00:00 GMT"), .ok "x", "t"⟩
        = .ok none ∧
      Script.main ⟨.ok (some "Thu, 01 Jan 1970 00:00:00 GMT"), .ok "x", "t"⟩
          ⟨none, none, none⟩ =
        ⟨⟨none, none, none⟩, .abortedNoTimestamp, false, ∅⟩) ∧
    (Script.main ⟨.ok (some "Wed, 01 Jan 2025 00:00:00 GMT"), .ok "x\n", "t"⟩
        ⟨some "0", some "x\n", none⟩).outcome ≠ .skippedUnchanged :=
  ⟨c9_zero_epoch_is_falsy.1 _ _ "Thu, 01 Jan 1970 00:00:00 GMT" (by decide) (by decide),
   c9_zero_epoch_is_falsy.2 _ _ (by decide)⟩

/-- C10: a cache file that exists but is empty is falsy, so `main` treats
the run as a first run — the new-record set is empty regardless of the
downloaded content — rather than diffing against an empty previous record
set, which would have reported every current record as new. -/
theorem c10_empty_cache_like_first_run (env : Env) (fs : FS) (k : Int) (content : String)
    (hprobe : check_last_modified env = .ok (some k))
    (hnc : ∀ e, load_last_modified fs.lastModified = some e → ¬(e ≠ 0 ∧ e = k))
    (hcache : load_cached_content fs = some "")
    (hget : download_blocklist env = .ok content)
    (hne : parse_records content ≠ ∅) :
    Script.main env fs =
      ⟨⟨save_last_modified k, some content,
          some (save_new_records_content ∅ k env.now)⟩, .completed, true, ∅⟩ ∧
    (Script.main env fs).newRecords ≠ parse_records content := by
  have hc : content ≠ "" := by
    intro h; rw [h] at hne; exact hne parse_records_empty_content
  have h1 : Script.main env fs =
      ⟨⟨save_last_modified k, some content,
          some (save_new_records_content ∅ k env.now)⟩, .completed, true, ∅⟩ := by
    rw [main_not_unchanged env fs k hprobe hnc,
      mainFetch_ok env fs k content hget hc,
      diffAgainstCache_empty_cache fs content hcache]
  exact ⟨h1, by rw [h1]; exact fun h => hne h.symm⟩

set_option maxRecDepth 8000 in
/-- Witness for C10: empty (but existing) cache file, non-empty download,
empty reported set. -/
theorem c10_empty_cache_like_first_run_witness :
    parse_records "a\nb\n" ≠ ∅ ∧
    Script.main ⟨.ok (some "Wed, 01 Jan 2025 00:00:00 GMT"), .ok "a\nb\n", "t"⟩
        ⟨none, some "", none⟩ =
      ⟨⟨some "1735689600", some "a\nb\n",
          some (save_new_records_content ∅ 1735689600 "t")⟩, .completed, true, ∅⟩ :=
  ⟨by decide,
   (c10_empty_cache_like_first_run _ _ 1735689600 _ (by decide)
     (fun e he => by simp [load_last_modified] at he) (by decide) (by decide) (by decide)).1⟩

/-! ## Record-parsing lemmas -/

lemma pySplitlines_empty : pySplitlines "" = [] := rfl

lemma parse_records_eq (s : String) :
    parse_records s =
      (((pySplitlines s).map pyStrip).filter
        (fun l => !(l == "") && !pyStartsWithHash l)).toFinset := by
  unfold parse_records
  split_ifs with h
  · rw [h, pySplitlines_empty]
    rfl
  · rfl

lemma parse_records_perm (A A' : String)
    (h : (pySplitlines A).Perm (pySplitlines A')) :
    parse_records A = parse_records A' := by
  rw [parse_records_eq, parse_records_eq]
  exact List.toFinset_eq_of_perm _ _ ((h.map pyStrip).filter _)

lemma mem_parse_records (r s : String) :
    r ∈ parse_records s ↔
      r ∈ (pySplitlines s).map pyStrip ∧ ¬(r = "") ∧ pyStartsWithHash r = false := by
  rw [parse_records_eq]
  simp only [List.mem_toFinset, List.mem_filter, Bool.and_eq_true, Bool.not_eq_true',
    beq_eq_false_iff_ne, ne_eq, and_assoc]

lemma dropWhile_head_false {p : Char → Bool} :
    ∀ (l : List Char) (c : Char) (t : List Char), l.dropWhile p = c :: t → p c = false := by
  intro l
  induction l with
  | nil => intro c t h; simp [List.dropWhile] at h
  | cons a l' ih =>
    intro c t h
    rw [List.dropWhile_cons] at h
    by_cases ha : p a
    · rw [if_pos ha] at h; exact ih c t h
    · rw [if_neg ha] at h
      cases h
      simpa using ha

lemma dropWhile_dropWhile (p : Char → Bool) (l : List Char) :
    (l.dropWhile p).dropWhile p = l.dropWhile p := by
  cases h : l.dropWhile p with
  | nil => rfl
  | cons c t =>
    rw [List.dropWhile_cons, dropWhile_head_false l c t h]
    simp

lemma stripChars_idem (l : List Char) : stripChars (stripChars l) = stripChars l := by
  unfold stripChars
  have h1 : ((((l.dropWhile isPySpace).reverse.dropWhile isPySpace).reverse).dropWhile
      isPySpace) = ((l.dropWhile isPySpace).reverse.dropWhile isPySpace).reverse := by
    cases hC : ((l.dropWhile isPySpace).reverse.dropWhile isPySpace).reverse with
    | nil => rfl
    | cons c t =>
      have hsplit : (l.dropWhile isPySpace).reverse.takeWhile isPySpace ++
          (l.dropWhile isPySpace).reverse.dropWhile isPySpace =
          (l.dropWhile isPySpace).reverse :=
        List.takeWhile_append_dropWhile isPySpace (l.dropWhile isPySpace).reverse
      have hA2 : l.dropWhile isPySpace =
          ((l.dropWhile isPySpace).reverse.dropWhile isPySpace).reverse ++
            ((l.dropWhile isPySpace).reverse.takeWhile isPySpace).reverse := by
        conv_lhs => rw [← List.reverse_reverse (l.dropWhile isPySpace), ← hsplit]
        rw [List.reverse_append]
      rw [hC] at hA2
      have hc := dropWhile_head_false l c _ hA2
      rw [List.dropWhile_cons, hc]
      simp
  rw [h1, List.reverse_reverse, dropWhile_dropWhile]

lemma pyStrip_idem (s : String) : pyStrip (pyStrip s) = pyStrip s := by
  show (⟨stripChars (stripChars s.data)⟩ : String) = ⟨stripChars s.data⟩
  rw [stripChars_idem]

/-- C3: `parse_records` is deterministic (same text, same set), invariant
under permutation of the input lines, and its result never contains the
empty string or a string that (after stripping) starts with `'#'`. -/
theorem c3_parse_records_pure_order_free :
    ∀ s : String,
      parse_records s = parse_records s ∧
      (∀ t : String, (pySplitlines s).Perm (pySplitlines t) →
        parse_records s = parse_records t) ∧
      ∀ r ∈ parse_records s, ¬(r = "") ∧ pyStartsWithHash (pyStrip r) = false := by
  intro s
  refine ⟨rfl, fun t ht => parse_records_perm s t ht, fun r hr => ?_⟩
  rw [mem_parse_records] at hr
  obtain ⟨hmem, hne, hhash⟩ := hr
  obtain ⟨l, _, hl⟩ := List.mem_map.mp hmem
  have hfix : pyStrip r = r := by rw [← hl, pyStrip_idem]
  exact ⟨hne, by rw [hfix]; exact hhash⟩

set_option maxRecDepth 8000 in
/-- Witness for C3 on concrete texts: permuting lines keeps the set, and
the set at a sample text excludes empty and comment lines. -/
theorem c3_parse_records_pure_order_free_witness :
    ((pySplitlines "a\nb\n# c\n").Perm (pySplitlines "b\n# c\na\n") ∧
      parse_records "a\nb\n# c\n" = parse_records "b\n# c\na\n") ∧
    ("a" ∈ parse_records "  a \n\n# c\n" ∧
      ¬("a" = "") ∧ pyStartsWithHash (pyStrip "a") = false) :=
  ⟨⟨by decide, (c3_parse_records_pure_order_free "a\nb\n# c\n").2.1 _ (by decide)⟩,
   ⟨by decide, (c3_parse_records_pure_order_free "  a \n\n# c\n").2.2 "a" (by decide)⟩⟩

/-- C2: the set difference of parsed records is exactly the set of
stripped, non-empty, non-`'#'` lines of `A` that do not occur among the
stripped lines of `B`, and the difference is invariant under reordering the
lines of either text. -/
theorem c2_diff_new_lines_order_free :
    ∀ A B : String,
      parse_records A \ parse_records B =
        (((pySplitlines A).map pyStrip).filter
          (fun l => !(l == "") && !pyStartsWithHash l &&
            !(((pySplitlines B).map pyStrip).contains l))).toFinset ∧
      (∀ A' B' : String, (pySplitlines A).Perm (pySplitlines A') →
        (pySplitlines B).Perm (pySplitlines B') →
        parse_records A \ parse_records B = parse_records A' \ parse_records B') := by
  intro A B
  refine ⟨?_, fun A' B' hA hB => by
    rw [parse_records_perm A A' hA, parse_records_perm B B' hB]⟩
  ext r
  simp only [Finset.mem_sdiff, mem_parse_records, List.mem_toFinset, List.mem_filter,
    Bool.and_eq_true, Bool.not_eq_true', beq_eq_false_iff_ne, ne_eq]
  simp only [List.contains_eq_any_beq, List.any_eq_false, beq_iff_eq, Bool.not_eq_true]
  constructor
  · rintro ⟨⟨hm, hne, hh⟩, hnb⟩
    refine ⟨hm, ⟨⟨hne, hh⟩, ?_⟩⟩
    intro x hx hxr
    exact hnb ⟨hxr ▸ hx, hne, hh⟩
  · rintro ⟨hm, ⟨⟨hne, hh⟩, hnb⟩⟩
    exact ⟨⟨hm, hne, hh⟩, fun hB => hnb r hB.1 rfl⟩

set_option maxRecDepth 8000 in
/-- Witness for C2: concrete texts, and reorderings of both, give the same
one-element difference. -/
theorem c2_diff_new_lines_order_free_witness :
    parse_records "b\na\n# c\n" \ parse_records "x\nb\n" =
      parse_records "a\n# c\nb\n" \ parse_records "b\nx\n" ∧
    parse_records "b\na\n# c\n" \ parse_records "x\nb\n" = {"a"} :=
  ⟨(c2_diff_new_lines_order_free "b\na\n# c\n" "x\nb\n").2 "a\n# c\nb\n" "b\nx\n"
      (by decide) (by decide),
   by decide⟩

/-! ## Line-break-freedom and splitlines/join inversion -/

lemma data_append (a b : String) : (a ++ b).data = a.data ++ b.data :=
  String.data_append a b

lemma splitlinesChars_newline (rest : List Char) :
    splitlinesChars ('\n' :: rest) = [] :: splitlinesChars rest := by
  cases rest with
  | nil => rfl
  | cons r rs => rfl

lemma splitlinesChars_append (a rest : List Char) (h : ∀ c ∈ a, lineBreak c = false) :
    splitlinesChars (a ++ '\n' :: rest) = a :: splitlinesChars rest := by
  induction a with
  | nil => simpa using splitlinesChars_newline rest
  | cons c a' ih =>
    have hc : lineBreak c = false := h c (List.mem_cons_self c a')
    have ih' := ih (fun x hx => h x (List.mem_cons_of_mem c hx))
    cases a' with
    | nil =>
      show splitlinesChars (c :: '\n' :: rest) = [c] :: splitlinesChars rest
      rw [splitlinesChars, if_neg (by simp [hc]), splitlinesChars_newline]
    | cons c₂ a'' =>
      show splitlinesChars (c :: (c₂ :: (a'' ++ '\n' :: rest))) = _
      rw [splitlinesChars, if_neg (by simp [hc])]
      have : c₂ :: (a'' ++ '\n' :: rest) = (c₂ :: a'') ++ '\n' :: rest := rfl
      rw [this, ih']

lemma pySplitlines_joinLines (l : List String)
    (h : ∀ s ∈ l, ∀ c ∈ s.data, lineBreak c = false) :
    pySplitlines (joinLines l) = l := by
  induction l with
  | nil => rfl
  | cons s rest ih =>
    show pySplitlines ((s ++ "\n") ++ joinLines rest) = s :: rest
    unfold pySplitlines
    have hd : ((s ++ "\n") ++ joinLines rest).data =
        s.data ++ '\n' :: (joinLines rest).data := by
      rw [data_append, data_append, List.append_assoc]
      rfl
    rw [hd, splitlinesChars_append _ _ (h s (List.mem_cons_self s rest))]
    rw [List.map_cons]
    have ih' := ih (fun x hx => h x (List.mem_cons_of_mem s hx))
    unfold pySplitlines at ih'
    rw [ih']

lemma digitCh_facts : ∀ i : Fin 10,
    (digitCh i.val).isDigit = true ∧ lineBreak (digitCh i.val) = false ∧
    digitCh i.val ≠ ' ' ∧ digitCh i.val ≠ ':' ∧ (digitCh i.val).toNat = 48 + i.val := by
  decide

lemma digitCh_lineBreak (n : Nat) : lineBreak (digitCh n) = false := by
  have h : digitCh n = digitCh (n % 10) := by
    unfold digitCh
    rw [Nat.mod_mod_of_dvd n (by norm_num)]
  rw [h]
  exact (digitCh_facts ⟨n % 10, Nat.mod_lt n (by norm_num)⟩).2.1

lemma natCharsAux_lineBreak :
    ∀ (fuel n : Nat), ∀ c ∈ natCharsAux fuel n, lineBreak c = false := by
  intro fuel
  induction fuel with
  | zero => intro n c hc; simp [natCharsAux] at hc
  | succ f ih =>
    intro n c hc
    rw [natCharsAux] at hc
    split_ifs at hc with h
    · rcases List.mem_singleton.mp hc with rfl
      exact digitCh_lineBreak n
    · rcases List.mem_append.mp hc with h1 | h2
      · exact ih (n / 10) c h1
      · rcases List.mem_singleton.mp h2 with rfl
        exact digitCh_lineBreak (n % 10)

lemma natStr_lineBreak (n : Nat) : ∀ c ∈ (natStr n).data, lineBreak c = false :=
  fun c hc => natCharsAux_lineBreak (n + 1) n c hc

lemma intStr_lineBreak (e : Int) : ∀ c ∈ (intStr e).data, lineBreak c = false := by
  intro c hc
  have hc' : c ∈ (if e < 0 then '-' :: natChars (-e).toNat else natChars e.toNat) := hc
  split_ifs at hc' with h
  · rw [List.mem_cons] at hc'
    rcases hc' with rfl | hch
    · decide
    · exact natCharsAux_lineBreak _ _ c hch
  · exact natCharsAux_lineBreak _ _ c hc'

lemma data_mk (l : List Char) : (⟨l⟩ : String).data = l := rfl

lemma pad2_lineBreak (n : Nat) : ∀ c ∈ pad2 n, lineBreak c = false := by
  intro c hc
  rcases List.mem_cons.mp hc with rfl | hc
  · exact digitCh_lineBreak _
  · rcases List.mem_singleton.mp hc with rfl
    exact digitCh_lineBreak _

lemma pad4_lineBreak (n : Nat) : ∀ c ∈ pad4 n, lineBreak c = false := by
  intro c hc
  rcases List.mem_cons.mp hc with rfl | hc
  · exact digitCh_lineBreak _
  rcases List.mem_cons.mp hc with rfl | hc
  · exact digitCh_lineBreak _
  rcases List.mem_cons.mp hc with rfl | hc
  · exact digitCh_lineBreak _
  rcases List.mem_singleton.mp hc with rfl
  exact digitCh_lineBreak _

lemma wd_tok_facts : ∀ i : Fin 7, ∀ c ∈ wdNames.getD i.val [],
    lineBreak c = false ∧ c ≠ ' ' := by decide

lemma mon_tok_facts : ∀ i : Fin 12, ∀ c ∈ monthNamesAbbr.getD i.val [],
    lineBreak c = false ∧ c ≠ ' ' := by decide

lemma epoch_to_http_date_lineBreak (e : Int) :
    ∀ c ∈ (epoch_to_http_date e).data, lineBreak c = false := by
  have hm := civilFromDays_valid (e / 86400)
  have hwd : ((e / 86400 + 4) % 7).toNat < 7 := by omega
  have hmon : ((civilFromDays (e / 86400)).2.1 - 1).toNat < 12 := by omega
  simp only [epoch_to_http_date, data_mk]
  refine List.forall_mem_append.mpr ⟨?_, ?_⟩
  · exact List.forall_mem_append.mpr
      ⟨fun c h => (wd_tok_facts ⟨_, hwd⟩ c h).1, by decide⟩
  refine List.forall_mem_cons.mpr ⟨by decide, ?_⟩
  refine List.forall_mem_append.mpr ⟨pad2_lineBreak _, ?_⟩
  refine List.forall_mem_cons.mpr ⟨by decide, ?_⟩
  refine List.forall_mem_append.mpr
    ⟨fun c h => (mon_tok_facts ⟨_, hmon⟩ c h).1, ?_⟩
  refine List.forall_mem_cons.mpr ⟨by decide, ?_⟩
  refine List.forall_mem_append.mpr ⟨pad4_lineBreak _, ?_⟩
  refine List.forall_mem_cons.mpr ⟨by decide, ?_⟩
  refine List.forall_mem_append.mpr ⟨?_, ?_⟩
  · refine List.forall_mem_append.mpr ⟨pad2_lineBreak _, ?_⟩
    refine List.forall_mem_cons.mpr ⟨by decide, ?_⟩
    refine List.forall_mem_append.mpr ⟨pad2_lineBreak _, ?_⟩
    exact List.forall_mem_cons.mpr ⟨by decide, pad2_lineBreak _⟩
  · exact List.forall_mem_cons.mpr ⟨by decide, by decide⟩

lemma lbFree_append (a b : String) (ha : ∀ c ∈ a.data, lineBreak c = false)
    (hb : ∀ c ∈ b.data, lineBreak c = false) :
    ∀ c ∈ (a ++ b).data, lineBreak c = false := by
  intro c hc
  rw [data_append] at hc
  rcases List.mem_append.mp hc with h | h
  · exact ha c h
  · exact hb c h

lemma pyStartsWithHash_append (a b : String) (h : pyStartsWithHash a = true) :
    pyStartsWithHash (a ++ b) = true := by
  unfold pyStartsWithHash at h ⊢
  cases hd : a.data with
  | nil => rw [hd] at h; exact absurd h (by simp)
  | cons c t =>
    rw [hd] at h
    have hx : (a ++ b).data = c :: (t ++ b.data) := by rw [data_append, hd]; rfl
    rw [hx]
    exact h

/-- C8: the report written by `save_new_records` splits into exactly six
`'#'`-headed metadata lines (source URL, run time, source timestamp in both
forms, and the exact cardinality of the set), a blank line, then the records
in sorted order one per line — or the single `'#'`-headed placeholder line
when the set is empty. -/
theorem c8_report_format (records : Finset String) (e : Int) (now : String)
    (hrec : ∀ r ∈ records, ∀ c ∈ r.data, lineBreak c = false)
    (hnow : ∀ c ∈ now.data, lineBreak c = false) :
    pySplitlines (save_new_records_content records e now) =
      ["# New records added to Phishing Army Extended Blocklist",
       "# Source: " ++ BLOCKLIST_URL,
       "# Last updated: " ++ now,
       "# Blocklist Last-Modified: " ++
         (if e ≠ 0 then epoch_to_http_date e else "Unknown"),
       "# Blocklist Last-Modified (epoch): " ++ intStr e,
       "# Total new records: " ++ natStr records.card,
       ""] ++
      (if records = ∅ then ["# No new records detected in the last check"]
       else records.sort (· ≤ ·)) ∧
    (∀ l ∈ ["# New records added to Phishing Army Extended Blocklist",
       "# Source: " ++ BLOCKLIST_URL,
       "# Last updated: " ++ now,
       "# Blocklist Last-Modified: " ++
         (if e ≠ 0 then epoch_to_http_date e else "Unknown"),
       "# Blocklist Last-Modified (epoch): " ++ intStr e,
       "# Total new records: " ++ natStr records.card],
      pyStartsWithHash l = true) ∧
    pyStartsWithHash "# No new records detected in the last check" = true ∧
    List.Sorted (· ≤ ·) (records.sort (· ≤ ·)) := by
  refine ⟨?_, ?_, by decide, Finset.sort_sorted _ _⟩
  · unfold save_new_records_content
    apply pySplitlines_joinLines
    refine List.forall_mem_append.mpr ⟨?_, ?_⟩
    · refine List.forall_mem_cons.mpr ⟨by decide, ?_⟩
      refine List.forall_mem_cons.mpr ⟨by decide, ?_⟩
      refine List.forall_mem_cons.mpr ⟨lbFree_append _ _ (by decide) hnow, ?_⟩
      refine List.forall_mem_cons.mpr ⟨?_, ?_⟩
      · split_ifs with h
        · exact lbFree_append _ _ (by decide) (epoch_to_http_date_lineBreak e)
        · decide
      refine List.forall_mem_cons.mpr
        ⟨lbFree_append _ _ (by decide) (intStr_lineBreak e), ?_⟩
      refine List.forall_mem_cons.mpr
        ⟨lbFree_append _ _ (by decide) (natStr_lineBreak _), ?_⟩
      exact List.forall_mem_cons.mpr ⟨by decide, by simp⟩
    · split_ifs with h
      · exact List.forall_mem_cons.mpr ⟨by decide, by simp⟩
      · intro r hr
        exact hrec r ((Finset.mem_sort _).mp hr)
  · refine List.forall_mem_cons.mpr ⟨by decide, ?_⟩
    refine List.forall_mem_cons.mpr ⟨by decide, ?_⟩
    refine List.forall_mem_cons.mpr ⟨pyStartsWithHash_append _ _ (by decide), ?_⟩
    refine List.forall_mem_cons.mpr ⟨?_, ?_⟩
    · split_ifs with h
      · exact pyStartsWithHash_append _ _ (by decide)
      · decide
    refine List.forall_mem_cons.mpr ⟨pyStartsWithHash_append _ _ (by decide), ?_⟩
    exact List.forall_mem_cons.mpr ⟨pyStartsWithHash_append _ _ (by decide), by simp⟩

set_option maxRecDepth 8000 in
/-- Witness for C8 at the empty set: six header lines, blank line,
placeholder line. -/
theorem c8_report_format_witness :
    pySplitlines (save_new_records_content ∅ 1735689600 "t") =
      ["# New records added to Phishing Army Extended Blocklist",
       "# Source: " ++ BLOCKLIST_URL,
       "# Last updated: " ++ "t",
       "# Blocklist Last-Modified: " ++
         (if (1735689600 : Int) ≠ 0 then epoch_to_http_date 1735689600 else "Unknown"),
       "# Blocklist Last-Modified (epoch): " ++ intStr 1735689600,
       "# Total new records: " ++ natStr (∅ : Finset String).card,
       ""] ++
      (if (∅ : Finset String) = ∅ then ["# No new records detected in the last check"]
       else Finset.sort (· ≤ ·) (∅ : Finset String)) :=
  (c8_report_format ∅ 1735689600 "t" (by decide) (by decide)).1

/-! ## Token lemmas for the HTTP date round-trip -/

lemma digitCh_mod (n : Nat) : digitCh n = digitCh (n % 10) := by
  unfold digitCh
  rw [Nat.mod_mod_of_dvd n (by norm_num)]

lemma digitCh_ne_space (n : Nat) : digitCh n ≠ ' ' := by
  rw [digitCh_mod]
  exact (digitCh_facts ⟨n % 10, Nat.mod_lt n (by norm_num)⟩).2.2.1

lemma digitCh_ne_colon (n : Nat) : digitCh n ≠ ':' := by
  rw [digitCh_mod]
  exact (digitCh_facts ⟨n % 10, Nat.mod_lt n (by norm_num)⟩).2.2.2.1

lemma digitCh_isDigit (n : Nat) : (digitCh n).isDigit = true := by
  rw [digitCh_mod]
  exact (digitCh_facts ⟨n % 10, Nat.mod_lt n (by norm_num)⟩).1

lemma digitCh_toNat (n : Nat) (h : n < 10) : (digitCh n).toNat = 48 + n :=
  (digitCh_facts ⟨n, h⟩).2.2.2.2

lemma pad2_ne_space (n : Nat) : ∀ c ∈ pad2 n, c ≠ ' ' := by
  intro c hc
  rcases List.mem_cons.mp hc with rfl | hc
  · exact digitCh_ne_space _
  · rcases List.mem_singleton.mp hc with rfl
    exact digitCh_ne_space _

lemma pad2_ne_colon (n : Nat) : ∀ c ∈ pad2 n, c ≠ ':' := by
  intro c hc
  rcases List.mem_cons.mp hc with rfl | hc
  · exact digitCh_ne_colon _
  · rcases List.mem_singleton.mp hc with rfl
    exact digitCh_ne_colon _

lemma pad4_ne_space (n : Nat) : ∀ c ∈ pad4 n, c ≠ ' ' := by
  intro c hc
  rcases List.mem_cons.mp hc with rfl | hc
  · exact digitCh_ne_space _
  rcases List.mem_cons.mp hc with rfl | hc
  · exact digitCh_ne_space _
  rcases List.mem_cons.mp hc with rfl | hc
  · exact digitCh_ne_space _
  rcases List.mem_singleton.mp hc with rfl
  exact digitCh_ne_space _

lemma splitOnChar_no_sep (sep : Char) (a : List Char) (h : ∀ c ∈ a, c ≠ sep) :
    splitOnChar sep a = [a] := by
  induction a with
  | nil => rfl
  | cons c a' ih =>
    rw [splitOnChar, if_neg (h c (List.mem_cons_self c a')),
      ih (fun x hx => h x (List.mem_cons_of_mem c hx))]

lemma splitOnChar_append (sep : Char) (a rest : List Char) (h : ∀ c ∈ a, c ≠ sep) :
    splitOnChar sep (a ++ sep :: rest) = a :: splitOnChar sep rest := by
  induction a with
  | nil =>
    show splitOnChar sep (sep :: rest) = [] :: splitOnChar sep rest
    rw [splitOnChar, if_pos rfl]
  | cons c a' ih =>
    show splitOnChar sep (c :: (a' ++ sep :: rest)) = _
    rw [splitOnChar, if_neg (h c (List.mem_cons_self c a')),
      ih (fun x hx => h x (List.mem_cons_of_mem c hx))]

lemma parseDigits_pad2 (n : Nat) (hn : n < 100) : parseDigits (pad2 n) = some n := by
  have h1 : n / 10 < 10 := by omega
  have h2 : n % 10 < 10 := by omega
  unfold parseDigits pad2
  rw [if_pos ⟨by simp, by simp [digitCh_isDigit]⟩]
  simp only [List.foldl]
  rw [digitCh_toNat _ h1, digitCh_toNat _ h2]
  congr 1
  omega

lemma parseDigits_pad4 (n : Nat) (hn : n < 10000) : parseDigits (pad4 n) = some n := by
  have h1 : n / 1000 < 10 := by omega
  have h2 : n / 100 % 10 < 10 := by omega
  have h3 : n / 10 % 10 < 10 := by omega
  have h4 : n % 10 < 10 := by omega
  unfold parseDigits pad4
  rw [if_pos ⟨by simp, by simp [digitCh_isDigit]⟩]
  simp only [List.foldl]
  rw [digitCh_toNat _ h1, digitCh_toNat _ h2, digitCh_toNat _ h3, digitCh_toNat _ h4]
  congr 1
  omega

lemma monthNum_roundtrip :
    ∀ i : Fin 12, monthNum (monthNamesAbbr.getD i.val []) = some (i.val + 1) := by
  decide

lemma parseTime3_fmt (h mi s : Nat) (hh : h < 100) (hmi : mi < 100) (hs : s < 100) :
    parseTime3 (pad2 h ++ ':' :: (pad2 mi ++ ':' :: pad2 s)) = some (h, mi, s) := by
  unfold parseTime3
  rw [splitOnChar_append ':' (pad2 h) _ (pad2_ne_colon h),
    splitOnChar_append ':' (pad2 mi) _ (pad2_ne_colon mi),
    splitOnChar_no_sep ':' (pad2 s) (pad2_ne_colon s)]
  simp only [parseDigits_pad2 h hh, parseDigits_pad2 mi hmi, parseDigits_pad2 s hs]

lemma getLast_append_comma (l : List Char) : (l ++ [',']).getLast? = some ',' := by
  induction l with
  | nil => rfl
  | cons c l' ih =>
    rw [List.cons_append, List.getLast?_cons, ih]
    cases l' <;> rfl

/-! ## C4: the HTTP date round-trip -/

lemma daysInMonth_le (y m : Int) : daysInMonth y m ≤ 31 := by
  unfold daysInMonth
  split_ifs <;> omega

lemma isEmpty_false_of_ne (l : List Char) (h : l ≠ []) : l.isEmpty = false := by
  cases l with
  | nil => exact absurd rfl h
  | cons a l' => rfl

lemma wd_tok_ne_nil : ∀ i : Fin 7, wdNames.getD i.val [] ≠ [] := by decide

lemma mon_tok_ne_nil : ∀ i : Fin 12, monthNamesAbbr.getD i.val [] ≠ [] := by decide

set_option maxHeartbeats 1000000 in
/-- C4: formatting a valid epoch as an RFC 5322 / HTTP date and parsing it
back is the identity.  `Valid` means the civil year of the epoch has four
digits (1000..9999), the only years RFC 5322 dates and `strftime %Y` render
unambiguously. -/
theorem c4_http_date_roundtrip (e : Int)
    (hy1 : 1000 ≤ (civilFromDays (e / 86400)).1)
    (hy2 : (civilFromDays (e / 86400)).1 ≤ 9999) :
    parse_http_date (epoch_to_http_date e) = some e := by
  obtain ⟨hm1, hm2, hd1, hd2⟩ := civilFromDays_valid (e / 86400)
  have hrt := daysFromCivil_civilFromDays (e / 86400)
  have hdim := daysInMonth_le (civilFromDays (e / 86400)).1 (civilFromDays (e / 86400)).2.1
  have hwd7 : ((e / 86400 + 4) % 7).toNat < 7 := by omega
  have hmon12 : ((civilFromDays (e / 86400)).2.1 - 1).toNat < 12 := by omega
  have hT1 : ∀ c ∈ wdNames.getD ((e / 86400 + 4) % 7).toNat [] ++ [','], c ≠ ' ' := by
    intro c hc
    rcases List.mem_append.mp hc with h | h
    · exact (wd_tok_facts ⟨_, hwd7⟩ c h).2
    · rcases List.mem_singleton.mp h with rfl
      decide
  have hT3 : ∀ c ∈ monthNamesAbbr.getD ((civilFromDays (e / 86400)).2.1 - 1).toNat [],
      c ≠ ' ' := fun c h => (mon_tok_facts ⟨_, hmon12⟩ c h).2
  have hT5 : ∀ c ∈ pad2 ((e % 86400).toNat / 3600) ++ ':' ::
      (pad2 ((e % 86400).toNat % 3600 / 60) ++ ':' :: pad2 ((e % 86400).toNat % 60)),
      c ≠ ' ' := by
    intro c hc
    rcases List.mem_append.mp hc with h | h
    · exact pad2_ne_space _ c h
    rcases List.mem_cons.mp h with rfl | h
    · decide
    rcases List.mem_append.mp h with h | h
    · exact pad2_ne_space _ c h
    rcases List.mem_cons.mp h with rfl | h
    · decide
    · exact pad2_ne_space _ c h
  have hne : epoch_to_http_date e ≠ "" := by
    intro h
    have h2 := congrArg String.data h
    simp [epoch_to_http_date, data_mk] at h2
  unfold parse_http_date
  rw [if_neg hne]
  simp only [epoch_to_http_date, data_mk]
  simp only [parsedateToEpoch]
  rw [splitOnChar_append ' ' _ _ hT1,
      splitOnChar_append ' ' _ _ (pad2_ne_space _),
      splitOnChar_append ' ' _ _ hT3,
      splitOnChar_append ' ' _ _ (pad4_ne_space _),
      splitOnChar_append ' ' _ _ hT5,
      splitOnChar_no_sep ' ' _ (by decide)]
  have hsod : (e % 86400).toNat < 86400 := by omega
  have hf1 : (wdNames.getD ((e / 86400 + 4) % 7).toNat [] ++ [',']).isEmpty = false :=
    isEmpty_false_of_ne _ (by simp)
  have hf3 : (monthNamesAbbr.getD ((civilFromDays (e / 86400)).2.1 - 1).toNat []).isEmpty
      = false := isEmpty_false_of_ne _ (mon_tok_ne_nil ⟨_, hmon12⟩)
  have hf5 : (pad2 ((e % 86400).toNat / 3600) ++ ':' ::
      (pad2 ((e % 86400).toNat % 3600 / 60) ++ ':' :: pad2 ((e % 86400).toNat % 60))).isEmpty
      = false := isEmpty_false_of_ne _ (by simp [pad2])
  have hpad2e : ∀ n : Nat, (pad2 n).isEmpty = false := fun n => rfl
  have hpad4e : ∀ n : Nat, (pad4 n).isEmpty = false := fun n => rfl
  simp only [List.filter_cons, List.filter_nil, hf1, hf3, hf5, hpad2e, hpad4e,
    Bool.not_false, if_true, List.isEmpty_cons, Bool.not_true, Bool.false_eq_true,
    if_false, ite_true, ite_false]
  rw [if_pos (getLast_append_comma _)]
  have hD100 : (civilFromDays (e / 86400)).2.2.toNat < 100 := by omega
  have hY4 : (civilFromDays (e / 86400)).1.toNat < 10000 := by omega
  have htz : tzOff ['G', 'M', 'T'] = some 0 := by decide
  have ht1 : (e % 86400).toNat / 3600 < 100 := by omega
  have ht2 : (e % 86400).toNat % 3600 / 60 < 100 := by omega
  have ht3 : (e % 86400).toNat % 60 < 100 := by omega
  simp only [parseDigits_pad2 ((civilFromDays (e / 86400)).2.2.toNat) hD100,
    monthNum_roundtrip ⟨((civilFromDays (e / 86400)).2.1 - 1).toNat, hmon12⟩,
    parseDigits_pad4 ((civilFromDays (e / 86400)).1.toNat) hY4,
    parseTime3_fmt ((e % 86400).toNat / 3600) ((e % 86400).toNat % 3600 / 60)
      ((e % 86400).toNat % 60) ht1 ht2 ht3, htz]
  have hy68 : ¬((civilFromDays (e / 86400)).1.toNat ≤ 68) := by omega
  have hy100 : ¬((civilFromDays (e / 86400)).1.toNat < 100) := by omega
  simp only [if_neg hy68, if_neg hy100]
  have hYc : (((civilFromDays (e / 86400)).1.toNat : Nat) : Int)
      = (civilFromDays (e / 86400)).1 := by omega
  have hMc : ((((civilFromDays (e / 86400)).2.1 - 1).toNat + 1 : Nat) : Int)
      = (civilFromDays (e / 86400)).2.1 := by omega
  have hDc : (((civilFromDays (e / 86400)).2.2.toNat : Nat) : Int)
      = (civilFromDays (e / 86400)).2.2 := by omega
  rw [hYc, hMc, hDc]
  rw [if_pos ⟨by omega, by omega, by omega, hd2, by omega, by omega, by omega⟩]
  rw [hrt]
  exact congrArg some (by omega)

set_option maxRecDepth 8000 in
/-- Witness for C4 at the epoch of 2025-01-01T00:00:00Z. -/
theorem c4_http_date_roundtrip_witness :
    (1000 ≤ (civilFromDays ((1735689600 : Int) / 86400)).1 ∧
      (civilFromDays ((1735689600 : Int) / 86400)).1 ≤ 9999) ∧
    parse_http_date (epoch_to_http_date 1735689600) = some 1735689600 :=
  ⟨⟨by decide, by decide⟩, c4_http_date_roundtrip 1735689600 (by decide) (by decide)⟩
